import Mathlib

/-!
Verification development for the Silog invoice extractor (src/app.py).

The Python source extracts structured fields from invoice text with a fixed
set of regular expressions, normalizes units, assembles a fixed-schema
record per document, and drives a batch over uploaded files.

Shallow embedding choices:
* Acquired page text is a `String` (the external PDF library is an oracle:
  `Option String`, `none` meaning the byte stream is unreadable and
  `pdfplumber.open` raises).
* Python `float` values are modelled as `ℚ`; every number the code parses
  is a decimal literal, so the model is exact.
* Python exceptions are modelled with `Except Unit`; the blanket
  `except Exception: return None` of `parse_invoice_pdf_bytes` becomes
  `Except.toOption`.
* `datetime.now()` is an input parameter (`ts`).
* The regular expressions are embedded via a small backtracking engine
  (`RE` / `reM` / `reSearch`) with Python `re.search` semantics: leftmost
  match wins, alternation is left-biased, `*`/`+` are greedy, `+?` is lazy,
  capture groups record the last completed span, `\x5cb` is an ASCII word
  boundary, and IGNORECASE is expressed in the character classes.  The
  engine is fuelled; the fuel bounds the backtracking depth (pattern size
  plus star iterations, both far below the allotted fuel on any input).
  Texts are ASCII, matching the hardcoded English label patterns.
-/

namespace Silog

instance {ε α : Type _} [DecidableEq ε] [DecidableEq α] : DecidableEq (Except ε α) :=
  fun x y =>
  match x, y with
  | .ok a, .ok b => if h : a = b then .isTrue (by rw [h]) else .isFalse (by simp [h])
  | .error a, .error b => if h : a = b then .isTrue (by rw [h]) else .isFalse (by simp [h])
  | .ok _, .error _ => .isFalse (by simp)
  | .error _, .ok _ => .isFalse (by simp)

/-- ASCII lower-casing of one character (Python `str.lower` on ASCII text). -/
def lowerChar (c : Char) : Char :=
  if c.isUpper then Char.ofNat (c.toNat + 32) else c

/-- ASCII upper-casing of one character (Python `str.upper` on ASCII text). -/
def upperChar (c : Char) : Char :=
  if c.isLower then Char.ofNat (c.toNat - 32) else c

/-- Python `str.lower` (ASCII). -/
def pyLower (s : String) : String := String.mk (s.toList.map lowerChar)

/-- Python `str.upper` (ASCII). -/
def pyUpper (s : String) : String := String.mk (s.toList.map upperChar)

/-- The whitespace class of Python `re` (`\x5cs`) and `str.strip`. -/
def isPySpace (c : Char) : Bool :=
  c == ' ' || c == '\t' || c == '\n' || c == '\r' || c == '\x0b' || c == '\x0c'

/-- Python `str.strip()`. -/
def pyStrip (l : List Char) : List Char :=
  ((l.dropWhile isPySpace).reverse.dropWhile isPySpace).reverse

/-- Python `re.sub(r"\x5cs+", " ", s)`: collapse each maximal whitespace run to one space. -/
def collapseWs (l : List Char) : List Char :=
  (l.foldl (fun acc c =>
      if isPySpace c then (if acc.2 then acc else (acc.1 ++ [' '], true))
      else (acc.1 ++ [c], false)) (([] : List Char), false)).1

/-- Decimal digits to a natural number (Python `int` on a `\x5cd+` capture). -/
def digitsToNat (l : List Char) : Nat :=
  l.foldl (fun n c => 10 * n + (c.toNat - 48)) 0

/-- Python `float` on the strings the code can feed it: after the comma
strip, every capture consists of digits and dots only, and `float`
succeeds exactly when there is at least one digit and at most one dot.
`none` models the `ValueError` raise. -/
def pyFloat (l : List Char) : Option ℚ :=
  if l.isEmpty then none
  else if l.any (fun c => !(c.isDigit || c == '.')) then none
  else if 2 ≤ (l.filter (fun c => c == '.')).length then none
  else if l.all (fun c => c == '.') then none
  else
    let intPart := l.takeWhile (fun c => !(c == '.'))
    let fracPart := (l.dropWhile (fun c => !(c == '.'))).drop 1
    some ((digitsToNat intPart : ℚ) + (digitsToNat fracPart : ℚ) / (10 ^ fracPart.length))

/-- The source's `_f = lambda s: float(s.replace(",", "")) if s else None`.
`Except.error` models the `ValueError` escaping from `float`. -/
def _f (l : List Char) : Except Unit (Option ℚ) :=
  if l.isEmpty then .ok none
  else
    match pyFloat (l.filter (fun c => !(c == ','))) with
    | some q => .ok (some q)
    | none => .error ()

/-- Does `s` start with `p`?  (Python `str.startswith`, on the character
lists underlying the strings.) -/
def startsWithL : List Char → List Char → Bool
  | _, [] => true
  | [], _ :: _ => false
  | c :: cs, p :: ps => c == p && startsWithL cs ps

/-- Python `str.startswith`. -/
def pyStartsWith (s p : String) : Bool := startsWithL s.toList p.toList

/-- The source's `_to_kg = lambda v, u: v if u.lower().startswith("kg") else v * 0.453592`.
The factor `0.453592` is the exact rational `453592 / 1000000`. -/
def _to_kg (v : ℚ) (u : String) : ℚ :=
  if pyStartsWith (pyLower u) "kg" then v else v * (453592 / 1000000)

/-! ### A backtracking regex engine with Python `re` semantics -/

/-- Regular-expression syntax: character classes, sequence, left-biased
alternation, greedy star, lazy star, numbered capture groups, and the
word boundary `\x5cb`. -/
inductive RE where
  | eps
  | cls (f : Char → Bool)
  | seq (a b : RE)
  | alt (a b : RE)
  | star (a : RE)
  | starL (a : RE)
  | grp (n : Nat) (a : RE)
  | wb

/-- Capture state: group number to captured characters; a fresh capture for
a group shadows older ones (Python keeps the last completed capture). -/
abbrev Caps := List (Nat × List Char)

def capGet (caps : Caps) (n : Nat) : Option (List Char) :=
  (caps.find? (fun p => p.1 == n)).map Prod.snd

/-- Python `\x5cw` (ASCII): letters, digits, underscore. -/
def isWordChar (c : Char) : Bool := c.isAlpha || c.isDigit || c == '_'

/-- CPS backtracking matcher.  `prev` is the character just before the
current position (for word boundaries), `k` the continuation receiving the
captures, new previous character and remaining input of a successful
prefix match.  The fuel bounds recursion depth; alternation takes the
first branch whose whole continuation succeeds, exactly as Python's
backtracking does. -/
def reM : Nat → RE → Option Char → List Char → Caps →
    (Caps → Option Char → List Char → Option Caps) → Option Caps
  | 0, _, _, _, _, _ => none
  | fuel + 1, re, prev, s, caps, k =>
    match re with
    | .eps => k caps prev s
    | .cls f =>
      match s with
      | [] => none
      | c :: rest => if f c then k caps (some c) rest else none
    | .seq a b =>
      reM fuel a prev s caps fun caps1 prev1 s1 => reM fuel b prev1 s1 caps1 k
    | .alt a b =>
      match reM fuel a prev s caps k with
      | some out => some out
      | none => reM fuel b prev s caps k
    | .star a =>
      match reM fuel a prev s caps (fun caps1 prev1 s1 =>
          if s1.length < s.length then reM fuel (.star a) prev1 s1 caps1 k else none) with
      | some out => some out
      | none => k caps prev s
    | .starL a =>
      match k caps prev s with
      | some out => some out
      | none =>
        reM fuel a prev s caps fun caps1 prev1 s1 =>
          if s1.length < s.length then reM fuel (.starL a) prev1 s1 caps1 k else none
    | .grp n a =>
      reM fuel a prev s caps fun caps1 prev1 s1 =>
        k ((n, s.take (s.length - s1.length)) :: caps1) prev1 s1
    | .wb =>
      let lw := match prev with | some c => isWordChar c | none => false
      let rw := match s with | c :: _ => isWordChar c | [] => false
      if lw != rw then k caps prev s else none

/-- Python `re.search`: try a match at each position left to right; the first
position admitting a match wins. -/
def reSearchAux (fuel : Nat) (re : RE) : Option Char → List Char → Option Caps
  | prev, [] => reM fuel re prev [] [] (fun caps _ _ => some caps)
  | prev, c :: rest =>
    match reM fuel re prev (c :: rest) [] (fun caps _ _ => some caps) with
    | some caps => some caps
    | none => reSearchAux fuel re (some c) rest

/-- Fuel bounding the engine's recursion depth: pattern size plus the
number of star iterations, both far below this bound for every pattern of
the source on any text. -/
def reFuel (s : List Char) : Nat := (s.length + 1) * 4096

def reSearch (re : RE) (t : String) : Option Caps :=
  reSearchAux (reFuel t.toList) re none t.toList

/-! ### Combinators transcribing Python regex syntax -/

/-- A case-sensitive literal character. -/
def litCS (c : Char) : RE := .cls (fun d => d == c)

/-- A literal character under `re.I`. -/
def litCI (c : Char) : RE := .cls (fun d => lowerChar d == lowerChar c)

def rcat (l : List RE) : RE := l.foldr .seq .eps

def sCI (s : String) : RE := rcat (s.toList.map litCI)

def sCS (s : String) : RE := rcat (s.toList.map litCS)

/-- Greedy `X?`. -/
def ropt (a : RE) : RE := .alt a .eps

/-- Greedy `X+`. -/
def rplus (a : RE) : RE := .seq a (.star a)

/-- Lazy `X+?`. -/
def rplusL (a : RE) : RE := .seq a (.starL a)

/-- Greedy `X{0,n}`, nested so longer repetitions are preferred. -/
def ratMost : Nat → RE → RE
  | 0, _ => .eps
  | n + 1, a => ropt (.seq a (ratMost n a))

/-- Exactly `X{n}`. -/
def rexact : Nat → RE → RE
  | 0, _ => .eps
  | n + 1, a => .seq a (rexact n a)

/-- Greedy `X{lo,hi}`. -/
def rrange (lo hi : Nat) (a : RE) : RE := .seq (rexact lo a) (ratMost (hi - lo) a)

def wsS : RE := .star (.cls isPySpace)

def wsP : RE := rplus (.cls isPySpace)

def digitCls : RE := .cls Char.isDigit

/-- Class `[\x5cd,.]` of the amount captures. -/
def numCls : RE := .cls (fun c => c.isDigit || c == ',' || c == '.')

def numChunk : RE := rplus numCls

def digits1 : RE := rplus digitCls

/-- Class `[A-Z]` under `re.I`: any ASCII letter. -/
def alphaCls : RE := .cls Char.isAlpha

/-- Optional `[:\x2d]?` separator. -/
def colonDash : RE := ropt (.cls (fun c => c == ':' || c == '-'))

/-- Optional `\x5c.?` dot. -/
def dotOpt : RE := ropt (litCS '.')

/-! ### The source's compiled patterns (src/app.py lines 54-85) -/

/-- Pattern `SHIPPER\x5cs*:?\x5cs*(.+?)(?:\x5cn{2,}|\x5cn[A-Z][A-Z &/]{3,30}:)` with `re.I | re.S`
(so `.` also matches newlines and `[A-Z]` any letter). -/
def SHIPPER_PAT : RE :=
  rcat [sCI "SHIPPER", wsS, ropt (litCS ':'), wsS,
        .grp 1 (rplusL (.cls (fun _ => true))),
        .alt (rcat [litCS '\n', litCS '\n', .star (litCS '\n')])
             (rcat [litCS '\n', alphaCls,
                    rrange 3 30 (.cls (fun c => c.isAlpha || c == ' ' || c == '&' || c == '/')),
                    litCS ':'])]

/-- Pattern `\x5cb(?:INVOICE\x5cs*)?DATE\x5cs+(\x5cd{1,2}\x5cs*[A-Za-z]{3}\x5cs*\x5cd{2,4})` with `re.I`. -/
def INVOICE_DATE_PAT : RE :=
  rcat [.wb, ropt (rcat [sCI "INVOICE", wsS]), sCI "DATE", wsP,
        .grp 1 (rcat [rrange 1 2 digitCls, wsS, rexact 3 alphaCls, wsS, rrange 2 4 digitCls])]

/-- The `G\x5c.?\x5cs*W\x5c.?\x5cs*K?\x5c.?\x5cs*[:\x2d]?\x5cs*` prefix shared by the
gross-weight patterns. -/
def gwLabel : RE :=
  rcat [litCI 'G', dotOpt, wsS, litCI 'W', dotOpt, wsS, ropt (litCI 'K'), dotOpt, wsS,
        colonDash, wsS]

/-- The `KGS?` unit literal. -/
def kgsUnit : RE := rcat [litCI 'K', litCI 'G', ropt (litCI 'S')]

/-- Pattern `Pieces\x5cs*[:\x2d]?\x5cs*(\x5cd+)\x5cs+G\x5c.?\x5cs*W...([\x5cd,.]+)\x5cs*KGS?\x5cs+Volume\x5cs*[:\x2d]?\x5cs*([\x5cd,.]+)` with `re.I`. -/
def ROW_PIECES_GW_VOL_PAT : RE :=
  rcat [sCI "Pieces", wsS, colonDash, wsS, .grp 1 digits1, wsP,
        gwLabel, .grp 2 numChunk, wsS, kgsUnit, wsP,
        sCI "Volume", wsS, colonDash, wsS, .grp 3 numChunk]

/-- Pattern `G\x5c.?\x5cs*W...([\x5cd,.]+)\x5cs*KGS?\x5cs+Volume\x5cs*[:\x2d]?\x5cs*([\x5cd,.]+)` with `re.I`. -/
def ROW_GW_VOL_PAT : RE :=
  rcat [gwLabel, .grp 1 numChunk, wsS, kgsUnit, wsP,
        sCI "Volume", wsS, colonDash, wsS, .grp 2 numChunk]

/-- Pattern `Pieces\x5cs*[:\x2d]?\x5cs*(\x5cd+)` with `re.I`. -/
def PIECES_PAT : RE := rcat [sCI "Pieces", wsS, colonDash, wsS, .grp 1 digits1]

/-- Pattern `G\x5c.?\x5cs*W\x5c.?\x5cs*K?\x5c.?\x5cs*[:\x2d]?\x5cs*([\x5cd,.]+)\x5cs*KGS?` with `re.I`. -/
def GW_PAT : RE := rcat [gwLabel, .grp 1 numChunk, wsS, kgsUnit]

/-- Pattern `Volume\x5cs*[:\x2d]?\x5cs*([\x5cd,.]+)` with `re.I`. -/
def VOL_PAT : RE := rcat [sCI "Volume", wsS, colonDash, wsS, .grp 1 numChunk]

/-- Pattern `CH\x5c.?\x5cs*W\x5cs*[:\x2d]?\x5cs*([\x5cd,.]+)\x5cs*(KG|KGS?|LB|M3|CBM)` with `re.I`. -/
def CHARGEABLE_PAT : RE :=
  rcat [litCI 'C', litCI 'H', dotOpt, wsS, litCI 'W', wsS, colonDash, wsS,
        .grp 1 numChunk, wsS,
        .grp 2 (.alt (sCI "KG") (.alt kgsUnit (.alt (sCI "LB") (.alt (sCI "M3") (sCI "CBM")))))]

/-- The common tail `(?:\x5cs+(?:RATE|CHARGES?|COSTS?))?\x5cs*(?:[A-Z]{3}\x5cs+)?([\x5cd,]+\x5c.\x5cd{2})`
of the two freight patterns. -/
def frtTail : RE :=
  rcat [ropt (rcat [wsP, .alt (sCI "RATE")
                        (.alt (rcat [sCI "CHARGE", ropt (litCI 'S')])
                              (rcat [sCI "COST", ropt (litCI 'S')]))]),
        wsS, ropt (rcat [alphaCls, alphaCls, alphaCls, wsP]),
        .grp 1 (rcat [rplus (.cls (fun c => c.isDigit || c == ',')), litCS '.',
                      digitCls, digitCls])]

/-- Pattern `AIR\x5cs*FREIGHT(?:\x5cs+(?:RATE|CHARGES?|COSTS?))?\x5cs*(?:[A-Z]{3}\x5cs+)?([\x5cd,]+\x5c.\x5cd{2})` with `re.I`. -/
def AIR_FRT_PAT : RE := rcat [sCI "AIR", wsS, sCI "FREIGHT", frtTail]

/-- Pattern `(?:SEA|OCEAN)\x5cs*FREIGHT(?:\x5cs+(?:RATE|CHARGES?|COSTS?))?\x5cs*(?:[A-Z]{3}\x5cs+)?([\x5cd,]+\x5c.\x5cd{2})` with `re.I`. -/
def SEA_FRT_PAT : RE := rcat [.alt (sCI "SEA") (sCI "OCEAN"), wsS, sCI "FREIGHT", frtTail]

/-- Pattern `Sub-?Total\x5cs*[:\x2d]?\x5cs*(?:([A-Z]{3})\x5cs+)?([\x5cd,.]+)` with `re.I`. -/
def SUBTOTAL_PAT : RE :=
  rcat [sCI "SUB", ropt (litCS '-'), sCI "TOTAL", wsS, colonDash, wsS,
        ropt (rcat [.grp 1 (rcat [alphaCls, alphaCls, alphaCls]), wsP]),
        .grp 2 numChunk]

/-- Pattern `\x5cb(CAD|USD|EUR|GBP|AUD)\x5cb` with `re.I`. -/
def CURRENCY_ANY : RE :=
  rcat [.wb,
        .grp 1 (.alt (sCI "CAD") (.alt (sCI "USD") (.alt (sCI "EUR")
                 (.alt (sCI "GBP") (sCI "AUD"))))),
        .wb]

/-- Pattern `(SY\x5cd+[A-Z]?)`, case-sensitive; the caller upper-cases first. -/
def SY_PAT : RE := .grp 1 (rcat [sCS "SY", digits1, ropt (.cls Char.isUpper)])

/-- Pattern `(\x5cd+[A-Z]?)`. -/
def NUM_ID_PAT : RE := .grp 1 (rcat [digits1, ropt (.cls Char.isUpper)])

/-! ### extract_invoice_id (src/app.py lines 21-35) -/

/-- Search and read one capture group. -/
def searchGrp (re : RE) (n : Nat) (t : String) : Option (List Char) :=
  match reSearch re t with
  | some caps => capGet caps n
  | none => none

/-- Index of the last occurrence of a character satisfying `p`. -/
def rfindIdx (p : Char → Bool) (l : List Char) : Option Nat :=
  match l.reverse.findIdx? p with
  | some i => some (l.length - 1 - i)
  | none => none

/-- The stem part of CPython `os.path.splitext`: drop the extension after
the last dot, unless every character of the base name before that dot is
itself a dot. -/
def splitextStem (t : String) : String :=
  let l := t.toList
  match rfindIdx (fun c => c == '.') l with
  | none => t
  | some di =>
    let fi := match rfindIdx (fun c => c == '/') l with
      | none => 0
      | some si => si + 1
    if (List.range di).any (fun j => decide (fi ≤ j) && !(l.getD j '.' == '.')) then
      String.mk (l.take di)
    else t

/-- src/app.py `extract_invoice_id`: upper-case the filename, then try the
SY-prefixed code pattern, then the first digit run with an optional
trailing letter, then fall back to the (upper-cased) stem. -/
def extract_invoice_id (filename : String) : String :=
  let f := pyUpper filename
  match searchGrp SY_PAT 1 f with
  | some g => String.mk g
  | none =>
    match searchGrp NUM_ID_PAT 1 f with
    | some g => String.mk g
    | none => splitextStem f

/-! ### Field extraction (src/app.py lines 96-166), one definition per
source block.  A mandatory group that did not participate would be `None`
in Python and the following method call would raise; `grpE` models that
with `Except.error`. -/

def grpE (caps : Caps) (n : Nat) : Except Unit (List Char) :=
  match capGet caps n with
  | some g => .ok g
  | none => .error ()

/-- Lines 96-99: `inv_date = m.group(1).strip().upper()` on an
`INVOICE_DATE_PAT` match, else `None`. -/
def invDateOf (text : String) : Except Unit (Option String) :=
  match reSearch INVOICE_DATE_PAT text with
  | some caps => do
    let g ← grpE caps 1
    .ok (some (pyUpper (String.mk (pyStrip g))))
  | none => .ok none

/-- Lines 105-108: the `CURRENCY_ANY` fallback over the initial `"USD"`. -/
def currencyFallback (text : String) : Except Unit String :=
  match reSearch CURRENCY_ANY text with
  | some caps => do
    let g ← grpE caps 1
    .ok (pyUpper (String.mk g))
  | none => .ok "USD"

/-- Lines 101-108: prefer the optional currency group of `SUBTOTAL_PAT`
(`if m and m.group(1)` — a missing or empty capture is falsy), else the
first `CURRENCY_ANY` occurrence, else the initial `"USD"`. -/
def currencyOf (text : String) : Except Unit String :=
  match reSearch SUBTOTAL_PAT text with
  | some caps =>
    match capGet caps 1 with
    | some g =>
      if g.isEmpty then currencyFallback text else .ok (pyUpper (String.mk g))
    | none => currencyFallback text
  | none => currencyFallback text

/-- Lines 110-113: `re.sub(r"\x5cs+", " ", m.group(1).strip())` on a
`SHIPPER_PAT` match, else `None`. -/
def shipperOf (text : String) : Except Unit (Option String) :=
  match reSearch SHIPPER_PAT text with
  | some caps => do
    let g ← grpE caps 1
    .ok (some (String.mk (collapseWs (pyStrip g))))
  | none => .ok none

/-- Lines 123-127: the weight+volume row fallback. -/
def rowGwVolOf (text : String) : Except Unit (Option ℚ × Option ℚ) :=
  match reSearch ROW_GW_VOL_PAT text with
  | some caps => do
    let w ← grpE caps 1
    let v ← grpE caps 2
    let wq ← _f w
    let vq ← _f v
    pure (wq, vq)
  | none => pure (none, none)

/-- Lines 129-132: the standalone pieces fallback. -/
def piecesFallback (text : String) : Except Unit (Option Nat) :=
  match reSearch PIECES_PAT text with
  | some caps => do
    let p ← grpE caps 1
    pure (some (digitsToNat p))
  | none => pure none

/-- Lines 134-137: the standalone gross-weight fallback. -/
def gwFallback (text : String) : Except Unit (Option ℚ) :=
  match reSearch GW_PAT text with
  | some caps => do
    let g ← grpE caps 1
    _f g
  | none => pure none

/-- Lines 139-142: the standalone volume fallback. -/
def volFallback (text : String) : Except Unit (Option ℚ) :=
  match reSearch VOL_PAT text with
  | some caps => do
    let g ← grpE caps 1
    _f g
  | none => pure none

/-- Lines 115-142: the layered pieces / gross-weight / volume fallback:
the combined three-field row pattern, else the weight+volume pattern and
then the three single-field patterns, each only when the value is still
unset (`pieces` is always still unset in the fallback branch, mirroring
the source's `if pieces is None`). -/
def pgvOf (text : String) : Except Unit (Option Nat × Option ℚ × Option ℚ) :=
  match reSearch ROW_PIECES_GW_VOL_PAT text with
  | some caps => do
    let p ← grpE caps 1
    let w ← grpE caps 2
    let v ← grpE caps 3
    let wq ← _f w
    let vq ← _f v
    .ok (some (digitsToNat p), wq, vq)
  | none => do
    let wv ← rowGwVolOf text
    let pieces ← piecesFallback text
    let w_kg ← (match wv.1 with
      | some x => pure (some x)
      | none => gwFallback text)
    let v_m3 ← (match wv.2 with
      | some x => pure (some x)
      | none => volFallback text)
    .ok (pieces, w_kg, v_m3)

/-- Lines 144-152: the chargeable value/unit pair; a mass unit
(`unit.lower().startswith(("kg", "lb"))`) goes through `_to_kg` into the
weight slot, a volume unit is stored unchanged in the volume slot.
`_to_kg(None, u)` returns `None` for a kg unit and raises otherwise. -/
def chargeableOf (text : String) : Except Unit (Option ℚ × Option ℚ) :=
  match reSearch CHARGEABLE_PAT text with
  | some caps => do
    let vg ← grpE caps 1
    let ug ← grpE caps 2
    let val ← _f vg
    let u := String.mk ug
    if pyStartsWith (pyLower u) "kg" || pyStartsWith (pyLower u) "lb" then
      match val with
      | some x => .ok (some ( _to_kg x u), none)
      | none => if pyStartsWith (pyLower u) "kg" then .ok (none, none) else .error ()
    else
      .ok (none, val)
  | none => .ok (none, none)

/-- Lines 154-157: `subtotal = _f(m.group(2))` on a `SUBTOTAL_PAT` match. -/
def subtotalOf (text : String) : Except Unit (Option ℚ) :=
  match reSearch SUBTOTAL_PAT text with
  | some caps => do
    let g ← grpE caps 2
    _f g
  | none => .ok none

/-- Lines 159-166: try `AIR_FRT_PAT`, else `SEA_FRT_PAT`; the match fixes
both the mode label and the rate. -/
def freightOf (text : String) : Except Unit (Option String × Option ℚ) :=
  match reSearch AIR_FRT_PAT text with
  | some caps => do
    let g ← grpE caps 1
    let r ← _f g
    .ok (some "Air", r)
  | none =>
    match reSearch SEA_FRT_PAT text with
    | some caps => do
      let g ← grpE caps 1
      let r ← _f g
      .ok (some "Sea", r)
    | none => .ok (none, none)

/-- The extractor outputs of one document, in source order. -/
structure Fields where
  inv_date : Option String
  currency : String
  shipper : Option String
  pieces : Option Nat
  w_kg : Option ℚ
  v_m3 : Option ℚ
  c_kg : Option ℚ
  c_cbm : Option ℚ
  subtotal : Option ℚ
  f_mode : Option String
  f_rate : Option ℚ
deriving DecidableEq, Repr

/-- Lines 96-166 in sequence; the first raising step aborts the record. -/
def extract_fields (text : String) : Except Unit Fields := do
  let inv_date ← invDateOf text
  let currency ← currencyOf text
  let shipper ← shipperOf text
  let pgv ← pgvOf text
  let ch ← chargeableOf text
  let subtotal ← subtotalOf text
  let fr ← freightOf text
  .ok { inv_date := inv_date, currency := currency, shipper := shipper,
        pieces := pgv.1, w_kg := pgv.2.1, v_m3 := pgv.2.2,
        c_kg := ch.1, c_cbm := ch.2, subtotal := subtotal,
        f_mode := fr.1, f_rate := fr.2 }

/-! ### Record assembly (src/app.py lines 168-185) -/

/-- One assembled record, the fields in the order of the returned dict. -/
structure Rec where
  Timestamp : String
  Filename : String
  Invoice_Date : Option String
  Currency : String
  Shipper : Option String
  Weight_KG : Option ℚ
  Volume_M3 : Option ℚ
  Chargeable_KG : Option ℚ
  Chargeable_CBM : Option ℚ
  Pieces : Option Nat
  Subtotal : Option ℚ
  Freight_Mode : Option String
  Freight_Rate : Option ℚ
deriving DecidableEq, Repr

/-- The dict literal of lines 168-185. -/
def assemble (ts filename : String) (f : Fields) : Rec :=
  { Timestamp := ts, Filename := filename, Invoice_Date := f.inv_date,
    Currency := f.currency, Shipper := f.shipper, Weight_KG := f.w_kg,
    Volume_M3 := f.v_m3, Chargeable_KG := f.c_kg, Chargeable_CBM := f.c_cbm,
    Pieces := f.pieces, Subtotal := f.subtotal, Freight_Mode := f.f_mode,
    Freight_Rate := f.f_rate }

/-- Function `parse_invoice_pdf_bytes` after text acquisition: extract every field
from the page text and assemble the record. -/
def parse_invoice_text (ts filename text : String) : Except Unit Rec :=
  (extract_fields text).map (assemble ts filename)

/-- Function `parse_invoice_pdf_bytes` (lines 91-188): the acquired page text is
the oracle input (`none` when `pdfplumber` cannot open the bytes); the
blanket `except` turns any raise into `None`. -/
def parse_invoice_pdf_bytes (pageText : Option String) (ts filename : String) :
    Option Rec :=
  match pageText with
  | none => none
  | some text => (parse_invoice_text ts filename text).toOption

/-- A cell value of the output table: string, number, integer or the
explicit null used for an absent field. -/
inductive Val where
  | s (v : String)
  | q (v : ℚ)
  | n (v : Nat)
  | null
deriving DecidableEq, Repr

def oS : Option String → Val
  | some v => .s v
  | none => .null

def oQ : Option ℚ → Val
  | some v => .q v
  | none => .null

def oN : Option Nat → Val
  | some v => .n v
  | none => .null

/-- The returned dict of lines 168-185 as an ordered key/value list; an
absent field is an explicit `Val.null` under its column name. -/
def Rec.items (r : Rec) : List (String × Val) :=
  [("Timestamp", .s r.Timestamp), ("Filename", .s r.Filename),
   ("Invoice_Date", oS r.Invoice_Date), ("Currency", .s r.Currency),
   ("Shipper", oS r.Shipper), ("Weight_KG", oQ r.Weight_KG),
   ("Volume_M3", oQ r.Volume_M3), ("Chargeable_KG", oQ r.Chargeable_KG),
   ("Chargeable_CBM", oQ r.Chargeable_CBM), ("Pieces", oN r.Pieces),
   ("Subtotal", oQ r.Subtotal), ("Freight_Mode", oS r.Freight_Mode),
   ("Freight_Rate", oQ r.Freight_Rate)]

/-- src/app.py lines 41-45. -/
def HEADERS : List String :=
  ["Timestamp", "Filename", "Invoice_Date", "Currency", "Shipper",
   "Weight_KG", "Volume_M3", "Chargeable_KG", "Chargeable_CBM",
   "Pieces", "Subtotal", "Freight_Mode", "Freight_Rate"]

/-! ### Batch driver (src/app.py lines 223-244) -/

/-- One uploaded document: display name plus the acquired page text
oracle (`none` = the byte stream is unreadable / acquisition raises). -/
structure Doc where
  name : String
  pageText : Option String
deriving DecidableEq, Repr

/-- What the loop body does with one upload. -/
def parse_doc (ts : String) (f : Doc) : Option Rec :=
  parse_invoice_pdf_bytes f.pageText ts (extract_invoice_id f.name)

/-- The `for i, f in enumerate(uploads)` loop: append the row on success,
emit one warning naming the file on failure, never abort. -/
def processBatch (ts : String) (docs : List Doc) : List Rec × List String :=
  docs.foldl (fun acc f =>
    match parse_doc ts f with
    | some row => (acc.1 ++ [row], acc.2)
    | none => (acc.1, acc.2 ++ [f.name])) ([], [])

/-! ### Helper lemmas -/

theorem exbind_ok {α β : Type _} (a : α) (g : α → Except Unit β) :
    (Except.ok a >>= g) = g a := rfl

theorem exbind_error {α β : Type _} (e : Unit) (g : α → Except Unit β) :
    ((Except.error e : Except Unit α) >>= g) = Except.error e := rfl

theorem exmap_ok {α β : Type _} (a : α) (g : α → β) :
    (Except.ok a : Except Unit α).map g = Except.ok (g a) := rfl

theorem exmap_error {α β : Type _} (e : Unit) (g : α → β) :
    (Except.error e : Except Unit α).map g = Except.error e := rfl

/-- A successful parse determines the extractor outputs: peeling
`parse_invoice_text` back to `extract_fields`. -/
theorem parse_fields_inv (ts fn text : String) (r : Rec)
    (h : parse_invoice_text ts fn text = .ok r) :
    extract_fields text = .ok
      { inv_date := r.Invoice_Date, currency := r.Currency, shipper := r.Shipper,
        pieces := r.Pieces, w_kg := r.Weight_KG, v_m3 := r.Volume_M3,
        c_kg := r.Chargeable_KG, c_cbm := r.Chargeable_CBM, subtotal := r.Subtotal,
        f_mode := r.Freight_Mode, f_rate := r.Freight_Rate } ∧
    r.Timestamp = ts ∧ r.Filename = fn := by
  unfold parse_invoice_text at h
  cases hf : extract_fields text with
  | error e => rw [hf, exmap_error] at h; exact absurd h (by simp)
  | ok f =>
    rw [hf, exmap_ok] at h
    injection h with h
    subst h
    exact ⟨rfl, rfl, rfl⟩

/-- A successful field extraction determines every per-block extractor
output (inverting the sequential `do` of `extract_fields`). -/
theorem extract_fields_inv (text : String) (f : Fields)
    (h : extract_fields text = .ok f) :
    invDateOf text = .ok f.inv_date ∧ currencyOf text = .ok f.currency ∧
    shipperOf text = .ok f.shipper ∧ pgvOf text = .ok (f.pieces, f.w_kg, f.v_m3) ∧
    chargeableOf text = .ok (f.c_kg, f.c_cbm) ∧ subtotalOf text = .ok f.subtotal ∧
    freightOf text = .ok (f.f_mode, f.f_rate) := by
  unfold extract_fields at h
  cases h1 : invDateOf text with
  | error e => rw [h1, exbind_error] at h; exact absurd h (by simp)
  | ok inv_date =>
  rw [h1, exbind_ok] at h
  cases h2 : currencyOf text with
  | error e => rw [h2, exbind_error] at h; exact absurd h (by simp)
  | ok currency =>
  rw [h2, exbind_ok] at h
  cases h3 : shipperOf text with
  | error e => rw [h3, exbind_error] at h; exact absurd h (by simp)
  | ok shipper =>
  rw [h3, exbind_ok] at h
  cases h4 : pgvOf text with
  | error e => rw [h4, exbind_error] at h; exact absurd h (by simp)
  | ok pgv =>
  rw [h4, exbind_ok] at h
  cases h5 : chargeableOf text with
  | error e => rw [h5, exbind_error] at h; exact absurd h (by simp)
  | ok ch =>
  rw [h5, exbind_ok] at h
  cases h6 : subtotalOf text with
  | error e => rw [h6, exbind_error] at h; exact absurd h (by simp)
  | ok subtotal =>
  rw [h6, exbind_ok] at h
  cases h7 : freightOf text with
  | error e => rw [h7, exbind_error] at h; exact absurd h (by simp)
  | ok fr =>
  rw [h7, exbind_ok] at h
  injection h with h
  subst h
  exact ⟨rfl, rfl, rfl, rfl, rfl, rfl, rfl⟩

/-- The batch fold with an arbitrary accumulator. -/
theorem processBatch_aux (ts : String) (docs : List Doc) :
    ∀ acc : List Rec × List String,
      docs.foldl (fun acc f =>
        match parse_doc ts f with
        | some row => (acc.1 ++ [row], acc.2)
        | none => (acc.1, acc.2 ++ [f.name])) acc =
      (acc.1 ++ docs.filterMap (parse_doc ts),
       acc.2 ++ (docs.filter (fun f => (parse_doc ts f).isNone)).map Doc.name) := by
  induction docs with
  | nil => intro acc; simp
  | cons d rest ih =>
    intro acc
    cases hd : parse_doc ts d with
    | some row =>
      simp only [List.foldl_cons, hd, List.filterMap_cons, List.filter_cons,
        Option.isNone_some, ih]
      simp [hd]
    | none =>
      simp only [List.foldl_cons, hd, List.filterMap_cons, List.filter_cons,
        Option.isNone_none, ih]
      simp [hd]

/-- The batch driver collects exactly the successfully parsed records in
submission order and one failure notice per failed document, also in
order. -/
theorem processBatch_spec (ts : String) (docs : List Doc) :
    processBatch ts docs =
      (docs.filterMap (parse_doc ts),
       (docs.filter (fun f => (parse_doc ts f).isNone)).map Doc.name) := by
  unfold processBatch
  rw [processBatch_aux]
  simp

theorem grpE_ok_iff (caps : Caps) (n : Nat) (g : List Char) :
    grpE caps n = .ok g ↔ capGet caps n = some g := by
  unfold grpE
  cases capGet caps n <;> simp

/-- Full case analysis of the chargeable-weight block. -/
theorem chargeableOf_cases (text : String) (p : Option ℚ × Option ℚ)
    (h : chargeableOf text = .ok p) :
    (reSearch CHARGEABLE_PAT text = none ∧ p = (none, none)) ∨
    (∃ caps vg ug val, reSearch CHARGEABLE_PAT text = some caps ∧
      capGet caps 1 = some vg ∧ capGet caps 2 = some ug ∧ _f vg = .ok val ∧
      (((pyStartsWith (pyLower (String.mk ug)) "kg"
          || pyStartsWith (pyLower (String.mk ug)) "lb") = true ∧
        ((∃ x, val = some x ∧ p = (some ( _to_kg x (String.mk ug)), none)) ∨
         (val = none ∧ p = (none, none)))) ∨
       ((pyStartsWith (pyLower (String.mk ug)) "kg"
          || pyStartsWith (pyLower (String.mk ug)) "lb") = false ∧
        p = (none, val)))) := by
  unfold chargeableOf at h
  cases hs : reSearch CHARGEABLE_PAT text with
  | none =>
    simp only [hs] at h
    injection h with h
    exact Or.inl ⟨rfl, h.symm⟩
  | some caps =>
    simp only [hs] at h
    cases hvg : grpE caps 1 with
    | error e => rw [hvg, exbind_error] at h; exact absurd h (by simp)
    | ok vg =>
    rw [hvg, exbind_ok] at h
    cases hug : grpE caps 2 with
    | error e => rw [hug, exbind_error] at h; exact absurd h (by simp)
    | ok ug =>
    rw [hug, exbind_ok] at h
    cases hval : _f vg with
    | error e => rw [hval, exbind_error] at h; exact absurd h (by simp)
    | ok val =>
    rw [hval, exbind_ok] at h
    refine Or.inr ⟨caps, vg, ug, val, rfl, (grpE_ok_iff caps 1 vg).mp hvg,
      (grpE_ok_iff caps 2 ug).mp hug, hval, ?_⟩
    cases hb : (pyStartsWith (pyLower (String.mk ug)) "kg"
        || pyStartsWith (pyLower (String.mk ug)) "lb") with
    | true =>
      simp only [hb, eq_self_iff_true, if_true, Bool.false_eq_true, if_false] at h
      refine Or.inl ⟨rfl, ?_⟩
      cases val with
      | some x =>
        injection h with h
        exact Or.inl ⟨x, rfl, h.symm⟩
      | none =>
        cases hk : pyStartsWith (pyLower (String.mk ug)) "kg" with
        | true =>
          simp only [hk, eq_self_iff_true, if_true, Bool.false_eq_true, if_false] at h
          injection h with h
          exact Or.inr ⟨rfl, h.symm⟩
        | false =>
          simp only [hk, eq_self_iff_true, if_true, Bool.false_eq_true, if_false] at h
          exact absurd h (by simp)
    | false =>
      simp only [hb, eq_self_iff_true, if_true, Bool.false_eq_true, if_false] at h
      injection h with h
      exact Or.inr ⟨rfl, h.symm⟩

theorem expure_bind {α β : Type _} (a : α) (g : α → Except Unit β) :
    ((pure a : Except Unit α) >>= g) = g a := rfl

/-- Case analysis of the weight+volume row fallback. -/
theorem rowGwVolOf_inv (text : String) (wv : Option ℚ × Option ℚ)
    (h : rowGwVolOf text = .ok wv) :
    (reSearch ROW_GW_VOL_PAT text = none ∧ wv = (none, none)) ∨
    (∃ caps w v, reSearch ROW_GW_VOL_PAT text = some caps ∧
      capGet caps 1 = some w ∧ capGet caps 2 = some v ∧
      _f w = .ok wv.1 ∧ _f v = .ok wv.2) := by
  unfold rowGwVolOf at h
  cases hs : reSearch ROW_GW_VOL_PAT text with
  | none =>
    simp only [hs] at h
    injection h with h
    exact Or.inl ⟨rfl, h.symm⟩
  | some caps =>
    simp only [hs] at h
    cases hw : grpE caps 1 with
    | error e => rw [hw, exbind_error] at h; exact absurd h (by simp)
    | ok w =>
    rw [hw, exbind_ok] at h
    cases hv : grpE caps 2 with
    | error e => rw [hv, exbind_error] at h; exact absurd h (by simp)
    | ok v =>
    rw [hv, exbind_ok] at h
    cases hwq : _f w with
    | error e => rw [hwq, exbind_error] at h; exact absurd h (by simp)
    | ok wq =>
    rw [hwq, exbind_ok] at h
    cases hvq : _f v with
    | error e => rw [hvq, exbind_error] at h; exact absurd h (by simp)
    | ok vq =>
    rw [hvq, exbind_ok] at h
    have h2 : Except.ok (wq, vq) = Except.ok wv := h
    injection h2 with h2
    subst h2
    exact Or.inr ⟨caps, w, v, rfl, (grpE_ok_iff caps 1 w).mp hw,
      (grpE_ok_iff caps 2 v).mp hv, hwq, hvq⟩

/-- Case analysis of the standalone gross-weight fallback. -/
theorem gwFallback_inv (text : String) (w : Option ℚ) (h : gwFallback text = .ok w) :
    (reSearch GW_PAT text = none ∧ w = none) ∨
    (∃ caps g, reSearch GW_PAT text = some caps ∧ capGet caps 1 = some g ∧
      _f g = .ok w) := by
  unfold gwFallback at h
  cases hs : reSearch GW_PAT text with
  | none =>
    simp only [hs] at h
    injection h with h
    exact Or.inl ⟨rfl, h.symm⟩
  | some caps =>
    simp only [hs] at h
    cases hg : grpE caps 1 with
    | error e => rw [hg, exbind_error] at h; exact absurd h (by simp)
    | ok g =>
    rw [hg, exbind_ok] at h
    exact Or.inr ⟨caps, g, rfl, (grpE_ok_iff caps 1 g).mp hg, h⟩

/-! ### The claims -/

/-- C1: every successfully parsed document's record carries exactly the
declared freight-invoice schema columns, in declared order, and an absent
field is stored as an explicit null under its column, never by omitting
the column. -/
theorem C1_schema_completeness (ts fn text : String) (r : Rec)
    (_h : parse_invoice_text ts fn text = .ok r) :
    r.items.map Prod.fst = HEADERS ∧
    (r.Invoice_Date = none → ("Invoice_Date", Val.null) ∈ r.items) ∧
    (r.Shipper = none → ("Shipper", Val.null) ∈ r.items) ∧
    (r.Weight_KG = none → ("Weight_KG", Val.null) ∈ r.items) ∧
    (r.Volume_M3 = none → ("Volume_M3", Val.null) ∈ r.items) ∧
    (r.Chargeable_KG = none → ("Chargeable_KG", Val.null) ∈ r.items) ∧
    (r.Chargeable_CBM = none → ("Chargeable_CBM", Val.null) ∈ r.items) ∧
    (r.Pieces = none → ("Pieces", Val.null) ∈ r.items) ∧
    (r.Subtotal = none → ("Subtotal", Val.null) ∈ r.items) ∧
    (r.Freight_Mode = none → ("Freight_Mode", Val.null) ∈ r.items) ∧
    (r.Freight_Rate = none → ("Freight_Rate", Val.null) ∈ r.items) := by
  refine ⟨rfl, ?_, ?_, ?_, ?_, ?_, ?_, ?_, ?_, ?_, ?_⟩ <;>
    { intro hn; simp [Rec.items, hn, oS, oQ, oN] }

/-- The all-absent record parsed from empty page text. -/
def recC1 : Rec :=
  { Timestamp := "t", Filename := "f", Invoice_Date := none, Currency := "USD",
    Shipper := none, Weight_KG := none, Volume_M3 := none, Chargeable_KG := none,
    Chargeable_CBM := none, Pieces := none, Subtotal := none, Freight_Mode := none,
    Freight_Rate := none }

theorem C1_schema_completeness_witness :
    recC1.items.map Prod.fst = HEADERS ∧
    (recC1.Invoice_Date = none → ("Invoice_Date", Val.null) ∈ recC1.items) ∧
    (recC1.Shipper = none → ("Shipper", Val.null) ∈ recC1.items) ∧
    (recC1.Weight_KG = none → ("Weight_KG", Val.null) ∈ recC1.items) ∧
    (recC1.Volume_M3 = none → ("Volume_M3", Val.null) ∈ recC1.items) ∧
    (recC1.Chargeable_KG = none → ("Chargeable_KG", Val.null) ∈ recC1.items) ∧
    (recC1.Chargeable_CBM = none → ("Chargeable_CBM", Val.null) ∈ recC1.items) ∧
    (recC1.Pieces = none → ("Pieces", Val.null) ∈ recC1.items) ∧
    (recC1.Subtotal = none → ("Subtotal", Val.null) ∈ recC1.items) ∧
    (recC1.Freight_Mode = none → ("Freight_Mode", Val.null) ∈ recC1.items) ∧
    (recC1.Freight_Rate = none → ("Freight_Rate", Val.null) ∈ recC1.items) :=
  C1_schema_completeness "t" "f" "" recC1 (by decide)

unseal Rat.mul Rat.add Rat.inv Rat.ofScientific in
/-- C4: the batch driver emits exactly the successfully parsed records in
submission order plus one failure notice naming each failed document; a
fault in one document never aborts the batch, and concretely a 3-document
batch with document 2 unreadable yields the records of documents 1 and 3
in order plus one notice for document 2. -/
theorem C4_batch_resilience :
    (∀ (ts : String) (docs : List Doc),
      processBatch ts docs =
        (docs.filterMap (parse_doc ts),
         (docs.filter (fun f => (parse_doc ts f).isNone)).map Doc.name)) ∧
    processBatch "T"
        [⟨"INV1.pdf", some "AIR FREIGHT 100.00"⟩, ⟨"bad.pdf", none⟩,
         ⟨"55671A.pdf", some "CH.W: 2.50 CBM"⟩] =
      ([⟨"T", "1", none, "USD", none, none, none, none, none, none, none,
          some "Air", some 100⟩,
        ⟨"T", "55671A", none, "USD", none, none, none, none, some 2.5, none, none,
          none, none⟩],
       ["bad.pdf"]) := by
  exact ⟨processBatch_spec, by decide⟩

/-- The record with its capture timestamp blanked, for comparing parses
taken at different times. -/
def clearTimestamp (r : Rec) : Rec :=
  { r with Timestamp := "" }

/-- C9: parsing the same acquired page text under the same display name
twice yields records identical in every field except the Timestamp —
field extraction is a deterministic function of its inputs, the capture
time being the only varying input. -/
theorem C9_determinism (ts1 ts2 fn text : String) (content : Option String) :
    (parse_invoice_text ts1 fn text).map clearTimestamp =
      (parse_invoice_text ts2 fn text).map clearTimestamp ∧
    (parse_invoice_pdf_bytes content ts1 fn).map clearTimestamp =
      (parse_invoice_pdf_bytes content ts2 fn).map clearTimestamp := by
  constructor
  · unfold parse_invoice_text
    cases extract_fields text with
    | error e => rfl
    | ok f => rfl
  · cases content with
    | none => rfl
    | some t =>
      show ((parse_invoice_text ts1 fn t).toOption).map clearTimestamp =
        ((parse_invoice_text ts2 fn t).toOption).map clearTimestamp
      unfold parse_invoice_text
      cases extract_fields t with
      | error e => rfl
      | ok f => rfl

unseal Rat.mul Rat.add Rat.inv Rat.ofScientific in
/-- C2: `_to_kg` multiplies by exactly 0.453592 when the unit does not
start with "kg" case-insensitively and passes the value through when it
does; chargeable text "10.00 LB" stores 4.53592 under Chargeable_KG with
Chargeable_CBM absent, "2.50 CBM" stores 2.50 under Chargeable_CBM with
Chargeable_KG absent, and a chargeable volume is always stored exactly as
parsed, never converted. -/
theorem C2_unit_normalizer :
    (∀ (v : ℚ) (u : String), pyStartsWith (pyLower u) "kg" = true → _to_kg v u = v) ∧
    (∀ (v : ℚ) (u : String), pyStartsWith (pyLower u) "kg" = false →
        _to_kg v u = v * 0.453592) ∧
    (∀ ts fn : String, ∃ r : Rec, parse_invoice_text ts fn "CH.W: 10.00 LB" = .ok r ∧
        r.Chargeable_KG = some 4.53592 ∧ r.Chargeable_CBM = none) ∧
    (∀ ts fn : String, ∃ r : Rec, parse_invoice_text ts fn "CH.W: 2.50 CBM" = .ok r ∧
        r.Chargeable_CBM = some 2.5 ∧ r.Chargeable_KG = none) ∧
    (∀ (ts fn text : String) (r : Rec), parse_invoice_text ts fn text = .ok r →
      ∀ q : ℚ, r.Chargeable_CBM = some q →
        ∃ g, searchGrp CHARGEABLE_PAT 1 text = some g ∧ _f g = .ok (some q)) := by
  refine ⟨?_, ?_, ?_, ?_, ?_⟩
  · intro v u hk
    simp [_to_kg, hk]
  · intro v u hk
    have hlit : (0.453592 : ℚ) = 453592 / 1000000 := by norm_num
    simp [_to_kg, hk, hlit]
  · have hLB : (extract_fields "CH.W: 10.00 LB").map (fun f => (f.c_kg, f.c_cbm)) =
        .ok (some 4.53592, none) := by decide
    intro ts fn
    cases hf : extract_fields "CH.W: 10.00 LB" with
    | error e => rw [hf, exmap_error] at hLB; exact absurd hLB (by simp)
    | ok f =>
      rw [hf, exmap_ok] at hLB
      injection hLB with hLB
      exact ⟨assemble ts fn f, by unfold parse_invoice_text; rw [hf, exmap_ok],
        congrArg Prod.fst hLB, congrArg Prod.snd hLB⟩
  · have hCBM : (extract_fields "CH.W: 2.50 CBM").map (fun f => (f.c_kg, f.c_cbm)) =
        .ok (none, some 2.5) := by decide
    intro ts fn
    cases hf : extract_fields "CH.W: 2.50 CBM" with
    | error e => rw [hf, exmap_error] at hCBM; exact absurd hCBM (by simp)
    | ok f =>
      rw [hf, exmap_ok] at hCBM
      injection hCBM with hCBM
      exact ⟨assemble ts fn f, by unfold parse_invoice_text; rw [hf, exmap_ok],
        congrArg Prod.snd hCBM, congrArg Prod.fst hCBM⟩
  · intro ts fn text r hp q hq
    obtain ⟨hfx, -, -⟩ := parse_fields_inv ts fn text r hp
    obtain ⟨-, -, -, -, hch, -, -⟩ := extract_fields_inv text _ hfx
    have hch' : chargeableOf text = .ok (r.Chargeable_KG, r.Chargeable_CBM) := hch
    rcases chargeableOf_cases text _ hch' with ⟨-, hpair⟩ |
      ⟨caps, vg, ug, val, hs, hvg, hug, hval, hcase⟩
    · rw [hq] at hpair
      exact absurd (congrArg Prod.snd hpair) (by simp)
    · rcases hcase with ⟨-, ⟨x, -, hpair⟩ | ⟨-, hpair⟩⟩ | ⟨-, hpair⟩
      · rw [hq] at hpair
        exact absurd (congrArg Prod.snd hpair) (by simp)
      · rw [hq] at hpair
        exact absurd (congrArg Prod.snd hpair) (by simp)
      · refine ⟨vg, by simp [searchGrp, hs, hvg], ?_⟩
        rw [hq] at hpair
        injection hpair with h1 h2
        rw [hval, ← h2]

unseal Rat.mul Rat.add Rat.inv Rat.ofScientific in
theorem C2_unit_normalizer_witness :
    _to_kg 10 "KGS" = 10 ∧ _to_kg 10 "LB" = 10 * 0.453592 :=
  ⟨C2_unit_normalizer.1 10 "KGS" (by decide),
   C2_unit_normalizer.2.1 10 "LB" (by decide)⟩

unseal Rat.mul Rat.add Rat.inv Rat.ofScientific in
/-- C3 counterexample: on "sub-total eur 5" the code captures the
subtotal-adjacent code "eur" but stores the upper-cased "EUR", so the
Currency field does not equal the captured code itself. -/
theorem C3_counterexample :
    searchGrp SUBTOTAL_PAT 1 "sub-total eur 5" = some ("eur".toList) ∧
    (extract_fields "sub-total eur 5").map Fields.currency = .ok "EUR" ∧
    ("EUR" : String) ≠ "eur" := by
  refine ⟨by decide, by decide, by decide⟩

/-- C3 (amended): the Currency field is the UPPER-CASED code captured
adjacent to the subtotal label when that group matched (non-empty);
otherwise the upper-cased first occurrence of a recognized currency code
anywhere in the text; otherwise the literal "USD". -/
theorem C3_currency_chain :
    (∀ (text : String) (g : List Char), searchGrp SUBTOTAL_PAT 1 text = some g →
        g.isEmpty = false → currencyOf text = .ok (pyUpper (String.mk g))) ∧
    (∀ text : String, searchGrp SUBTOTAL_PAT 1 text = none →
        ∀ g, searchGrp CURRENCY_ANY 1 text = some g →
        currencyOf text = .ok (pyUpper (String.mk g))) ∧
    (∀ text : String, searchGrp SUBTOTAL_PAT 1 text = none →
        reSearch CURRENCY_ANY text = none → currencyOf text = .ok "USD") ∧
    (extract_fields "price EUR later").map Fields.currency = .ok "EUR" ∧
    (extract_fields "hello world").map Fields.currency = .ok "USD" := by
  have fb1 : ∀ text : String, ∀ g, searchGrp CURRENCY_ANY 1 text = some g →
      currencyFallback text = .ok (pyUpper (String.mk g)) := by
    intro text g hg
    unfold searchGrp at hg
    unfold currencyFallback
    cases hs : reSearch CURRENCY_ANY text with
    | none => rw [hs] at hg; exact absurd hg (by simp)
    | some caps =>
      rw [hs] at hg
      simp only [hs, (grpE_ok_iff caps 1 g).mpr hg, exbind_ok]
  have fb2 : ∀ text : String, reSearch CURRENCY_ANY text = none →
      currencyFallback text = .ok "USD" := by
    intro text hg
    unfold currencyFallback
    simp only [hg]
  refine ⟨?_, ?_, ?_, by decide, by decide⟩
  · intro text g hg hne
    unfold searchGrp at hg
    unfold currencyOf
    cases hs : reSearch SUBTOTAL_PAT text with
    | none => rw [hs] at hg; exact absurd hg (by simp)
    | some caps =>
      simp only [hs] at hg
      simp only [hs, hg, hne, Bool.false_eq_true, if_false]
  · intro text hsub g hg
    unfold currencyOf
    cases hs : reSearch SUBTOTAL_PAT text with
    | none =>
      simp only [hs]
      exact fb1 text g hg
    | some caps =>
      unfold searchGrp at hsub
      simp only [hs] at hsub
      simp only [hs, hsub]
      exact fb1 text g hg
  · intro text hsub hcur
    unfold currencyOf
    cases hs : reSearch SUBTOTAL_PAT text with
    | none =>
      simp only [hs]
      exact fb2 text hcur
    | some caps =>
      unfold searchGrp at hsub
      simp only [hs] at hsub
      simp only [hs, hsub]
      exact fb2 text hcur

unseal Rat.mul Rat.add Rat.inv Rat.ofScientific in
theorem C3_currency_chain_witness :
    currencyOf "SubTotal USD 1,234.56" = .ok (pyUpper (String.mk ("USD".toList))) ∧
    currencyOf "price EUR later" = .ok (pyUpper (String.mk ("EUR".toList))) ∧
    currencyOf "hello world" = .ok "USD" :=
  ⟨C3_currency_chain.1 "SubTotal USD 1,234.56" ("USD".toList) (by decide) (by decide),
   C3_currency_chain.2.1 "price EUR later" (by decide) ("EUR".toList) (by decide),
   C3_currency_chain.2.2.1 "hello world" (by decide) (by decide)⟩

/-- C5 counterexample: on page text "Sub-Total: ." the subtotal label is
present and the permissive amount pattern matches the unparsable token
".", and the resulting error discards the ENTIRE record (the parse
returns the failure value), rather than storing that one field as absent
and assembling the rest of the record. -/
theorem C5_counterexample :
    reSearch SUBTOTAL_PAT "Sub-Total: ." ≠ none ∧
    parse_invoice_text "T" "F" "Sub-Total: ." = .error () ∧
    parse_invoice_pdf_bytes (some "Sub-Total: .") "T" "F" = none :=
  ⟨by decide, by decide, by decide⟩

/-- C5 (amended): an amount that fails the field's pattern (e.g. "100"
without the two fraction digits the freight patterns require) leaves the
field absent and the record is still assembled; but a token such as "."
that matches the permissive amount pattern yet is not parseable raises an
error that is caught at the per-document boundary, discarding the whole
record (not just the field) while the batch continues. -/
theorem C5_malformed_amount :
    (∀ ts fn : String, ∃ r : Rec, parse_invoice_text ts fn "AIR FREIGHT 100" = .ok r ∧
        r.Freight_Mode = none ∧ r.Freight_Rate = none) ∧
    (∀ ts fn : String, parse_invoice_text ts fn "Sub-Total: ." = .error ()) ∧
    processBatch "T" [⟨"a.pdf", some "Sub-Total: ."⟩, ⟨"b.pdf", some "Pieces: 3"⟩] =
      ([⟨"T", "B", none, "USD", none, none, none, none, none, some 3, none, none,
          none⟩],
       ["a.pdf"]) := by
  refine ⟨?_, ?_, by decide⟩
  · have hA : (extract_fields "AIR FREIGHT 100").map (fun f => (f.f_mode, f.f_rate)) =
        .ok (none, none) := by decide
    intro ts fn
    cases hf : extract_fields "AIR FREIGHT 100" with
    | error e => rw [hf, exmap_error] at hA; exact absurd hA (by simp)
    | ok f =>
      rw [hf, exmap_ok] at hA
      injection hA with hA
      injection hA with h1 h2
      exact ⟨assemble ts fn f, by unfold parse_invoice_text; rw [hf, exmap_ok], h1, h2⟩
  · intro ts fn
    have hS : extract_fields "Sub-Total: ." = .error () := by decide
    unfold parse_invoice_text
    rw [hS, exmap_error]

/-- C6 counterexample: the page text "hello" parses successfully into a
record in which NEITHER Chargeable_KG nor Chargeable_CBM is populated, so
"exactly one of the two is populated in every parsed record" fails. -/
theorem C6_counterexample :
    (parse_invoice_text "T" "F" "hello").map Rec.Chargeable_KG = .ok none ∧
    (parse_invoice_text "T" "F" "hello").map Rec.Chargeable_CBM = .ok none :=
  ⟨by decide, by decide⟩

/-- C6 (amended): at most one of Chargeable_KG / Chargeable_CBM is ever
populated; when the chargeable pattern does not match both are absent,
and when it matches with a successfully parsed value, a mass unit token
populates only Chargeable_KG (via `_to_kg`) and a volume unit token
populates only Chargeable_CBM. -/
theorem C6_chargeable_exclusive :
    ∀ (ts fn text : String) (r : Rec), parse_invoice_text ts fn text = .ok r →
      (r.Chargeable_KG = none ∨ r.Chargeable_CBM = none) ∧
      (reSearch CHARGEABLE_PAT text = none →
        r.Chargeable_KG = none ∧ r.Chargeable_CBM = none) ∧
      (∀ (caps : Caps) (g1 g2 : List Char) (q : ℚ),
        reSearch CHARGEABLE_PAT text = some caps →
        capGet caps 1 = some g1 → capGet caps 2 = some g2 → _f g1 = .ok (some q) →
        ((pyStartsWith (pyLower (String.mk g2)) "kg"
            || pyStartsWith (pyLower (String.mk g2)) "lb") = true →
          r.Chargeable_KG = some ( _to_kg q (String.mk g2)) ∧
          r.Chargeable_CBM = none) ∧
        ((pyStartsWith (pyLower (String.mk g2)) "kg"
            || pyStartsWith (pyLower (String.mk g2)) "lb") = false →
          r.Chargeable_CBM = some q ∧ r.Chargeable_KG = none)) := by
  intro ts fn text r hp
  obtain ⟨hfx, -, -⟩ := parse_fields_inv ts fn text r hp
  obtain ⟨-, -, -, -, hch, -, -⟩ := extract_fields_inv text _ hfx
  have hch2 : chargeableOf text = .ok (r.Chargeable_KG, r.Chargeable_CBM) := hch
  rcases chargeableOf_cases text _ hch2 with ⟨hs0, hpair⟩ |
    ⟨caps, vg, ug, val, hs, hvg, hug, hval, hcase⟩
  · injection hpair with h1 h2
    refine ⟨Or.inl h1, fun _ => ⟨h1, h2⟩, ?_⟩
    intro caps g1 g2 q hs2 hg1 hg2 hfq
    rw [hs0] at hs2
    exact absurd hs2 (by simp)
  · have hAtMost : r.Chargeable_KG = none ∨ r.Chargeable_CBM = none := by
      rcases hcase with ⟨-, ⟨x, -, hpair⟩ | ⟨-, hpair⟩⟩ | ⟨-, hpair⟩
      · injection hpair with h1 h2; exact Or.inr h2
      · injection hpair with h1 h2; exact Or.inl h1
      · injection hpair with h1 h2; exact Or.inl h1
    refine ⟨hAtMost, ?_, ?_⟩
    · intro hs0
      rw [hs0] at hs
      exact absurd hs (by simp)
    · intro caps2 g1 g2 q hs2 hg1 hg2 hfq
      rw [hs] at hs2
      injection hs2 with hs2
      subst hs2
      rw [hvg] at hg1
      injection hg1 with hg1
      subst hg1
      rw [hug] at hg2
      injection hg2 with hg2
      subst hg2
      rw [hval] at hfq
      injection hfq with hfq
      subst hfq
      constructor
      · intro hb
        rcases hcase with ⟨-, ⟨x, hx, hpair⟩ | ⟨hnone, -⟩⟩ | ⟨hbf, -⟩
        · injection hx with hx
          subst hx
          injection hpair with h1 h2
          exact ⟨h1, h2⟩
        · exact absurd hnone (by simp)
        · rw [hb] at hbf
          exact absurd hbf (by simp)
      · intro hb
        rcases hcase with ⟨hbt, -⟩ | ⟨-, hpair⟩
        · rw [hb] at hbt
          exact absurd hbt (by simp)
        · injection hpair with h1 h2
          exact ⟨h2, h1⟩

/-- The record parsed from "CH.W: 10.00 LB". -/
def recC6 : Rec :=
  { Timestamp := "T", Filename := "F", Invoice_Date := none, Currency := "USD",
    Shipper := none, Weight_KG := none, Volume_M3 := none,
    Chargeable_KG := some ( _to_kg 10 "LB"), Chargeable_CBM := none, Pieces := none,
    Subtotal := none, Freight_Mode := none, Freight_Rate := none }

unseal Rat.mul Rat.add Rat.inv Rat.ofScientific in
theorem C6_chargeable_exclusive_witness :
    recC6.Chargeable_KG = some ( _to_kg 10 "LB") ∧ recC6.Chargeable_CBM = none :=
  ((C6_chargeable_exclusive "T" "F" "CH.W: 10.00 LB" recC6 (by decide)).2.2
    [(2, ['L', 'B']), (1, ['1', '0', '.', '0', '0'])]
    ['1', '0', '.', '0', '0'] ['L', 'B'] 10
    (by decide) (by decide) (by decide) (by decide)).1 (by decide)

unseal Rat.mul Rat.add Rat.inv Rat.ofScientific in
/-- C7: freight resolution tries the air pattern first and only on its
failure the sea pattern; an air match yields mode "Air", a sea match mode
"Sea", each with the comma-stripped parsed rate; neither match leaves
both fields absent; concretely, with both a sea line and an air line
present (sea first in the text) the air capture wins. -/
theorem C7_freight_priority :
    (∀ (ts fn text : String) (r : Rec), parse_invoice_text ts fn text = .ok r →
        freightOf text = .ok (r.Freight_Mode, r.Freight_Rate)) ∧
    (∀ (text : String) (caps : Caps) (g : List Char) (q : ℚ),
        reSearch AIR_FRT_PAT text = some caps → capGet caps 1 = some g →
        _f g = .ok (some q) → freightOf text = .ok (some "Air", some q)) ∧
    (∀ (text : String) (caps : Caps) (g : List Char) (q : ℚ),
        reSearch AIR_FRT_PAT text = none → reSearch SEA_FRT_PAT text = some caps →
        capGet caps 1 = some g → _f g = .ok (some q) →
        freightOf text = .ok (some "Sea", some q)) ∧
    (∀ text : String, reSearch AIR_FRT_PAT text = none →
        reSearch SEA_FRT_PAT text = none → freightOf text = .ok (none, none)) ∧
    (parse_invoice_text "T" "F" "SEA FREIGHT 200.00\nAIR FREIGHT 100.00").map
        (fun r => (r.Freight_Mode, r.Freight_Rate)) = .ok (some "Air", some 100) := by
  refine ⟨?_, ?_, ?_, ?_, by decide⟩
  · intro ts fn text r hp
    obtain ⟨hfx, -, -⟩ := parse_fields_inv ts fn text r hp
    obtain ⟨-, -, -, -, -, -, hfr⟩ := extract_fields_inv text _ hfx
    exact hfr
  · intro text caps g q hs hg hfq
    unfold freightOf
    simp only [hs, (grpE_ok_iff caps 1 g).mpr hg, exbind_ok, hfq]
  · intro text caps g q ha hs hg hfq
    unfold freightOf
    simp only [ha, hs, (grpE_ok_iff caps 1 g).mpr hg, exbind_ok, hfq]
  · intro text ha hs
    unfold freightOf
    simp only [ha, hs]

unseal Rat.mul Rat.add Rat.inv Rat.ofScientific in
theorem C7_freight_priority_witness :
    freightOf "AIR FREIGHT 100.00" = .ok (some "Air", some 100) :=
  C7_freight_priority.2.1 "AIR FREIGHT 100.00"
    [(1, ['1', '0', '0', '.', '0', '0'])] ['1', '0', '0', '.', '0', '0'] 100
    (by decide) (by decide) (by decide)

/-- C8 counterexample: the extractor upper-cases the filename first, so
for "invoice.pdf" (no SY code, no digits) it returns "INVOICE", not the
filename stem "invoice" itself. -/
theorem C8_counterexample :
    extract_invoice_id "invoice.pdf" = "INVOICE" ∧
    splitextStem "invoice.pdf" = "invoice" ∧
    ("INVOICE" : String) ≠ "invoice" :=
  ⟨by decide, by decide, by decide⟩

/-- C8 (amended): the extractor works on the UPPER-CASED filename: it
returns the leftmost match of the SY-prefixed pattern there, else the
leftmost digit run with an optional trailing letter, else the upper-cased
filename's stem; concretely SY beats an earlier digit run and the digit
fallback takes the leftmost of several digit runs. -/
theorem C8_invoice_id_chain :
    (∀ fn : String, ∀ g, searchGrp SY_PAT 1 (pyUpper fn) = some g →
        extract_invoice_id fn = String.mk g) ∧
    (∀ fn : String, searchGrp SY_PAT 1 (pyUpper fn) = none →
        ∀ g, searchGrp NUM_ID_PAT 1 (pyUpper fn) = some g →
        extract_invoice_id fn = String.mk g) ∧
    (∀ fn : String, searchGrp SY_PAT 1 (pyUpper fn) = none →
        searchGrp NUM_ID_PAT 1 (pyUpper fn) = none →
        extract_invoice_id fn = splitextStem (pyUpper fn)) ∧
    extract_invoice_id "A1SY22.pdf" = "SY22" ∧
    extract_invoice_id "12A34B.pdf" = "12A" := by
  refine ⟨?_, ?_, ?_, by decide, by decide⟩
  · intro fn g hg
    unfold extract_invoice_id
    simp only [hg]
  · intro fn h1 g hg
    unfold extract_invoice_id
    simp only [h1, hg]
  · intro fn h1 h2
    unfold extract_invoice_id
    simp only [h1, h2]

theorem C8_invoice_id_chain_witness :
    extract_invoice_id "invoice.pdf" = splitextStem (pyUpper "invoice.pdf") :=
  C8_invoice_id_chain.2.2.1 "invoice.pdf" (by decide) (by decide)

unseal Rat.mul Rat.add Rat.inv Rat.ofScientific in
/-- C10: Weight_KG is only ever populated from a capture of one of the
three KG-labelled gross-weight patterns, stored as the comma-stripped
parsed number with no 0.453592 conversion; a pound-labelled gross weight
is not captured at all. -/
theorem C10_gross_weight :
    (∀ (ts fn text : String) (r : Rec), parse_invoice_text ts fn text = .ok r →
      ∀ q : ℚ, r.Weight_KG = some q →
        ∃ g, (searchGrp ROW_PIECES_GW_VOL_PAT 2 text = some g ∨
              searchGrp ROW_GW_VOL_PAT 1 text = some g ∨
              searchGrp GW_PAT 1 text = some g) ∧ _f g = .ok (some q)) ∧
    (extract_fields "G.W: 1,234.50 KGS").map Fields.w_kg = .ok (some 1234.5) ∧
    (extract_fields "G.W: 100 LB").map Fields.w_kg = .ok none := by
  refine ⟨?_, by decide, by decide⟩
  intro ts fn text r hp q hq
  obtain ⟨hfx, -, -⟩ := parse_fields_inv ts fn text r hp
  obtain ⟨-, -, -, hpgv, -, -, -⟩ := extract_fields_inv text _ hfx
  have hpgv2 : pgvOf text = .ok (r.Pieces, r.Weight_KG, r.Volume_M3) := hpgv
  rw [hq] at hpgv2
  unfold pgvOf at hpgv2
  cases hs1 : reSearch ROW_PIECES_GW_VOL_PAT text with
  | some caps =>
    simp only [hs1] at hpgv2
    cases hp1 : grpE caps 1 with
    | error e => rw [hp1, exbind_error] at hpgv2; exact absurd hpgv2 (by simp)
    | ok p =>
    rw [hp1, exbind_ok] at hpgv2
    cases hw1 : grpE caps 2 with
    | error e => rw [hw1, exbind_error] at hpgv2; exact absurd hpgv2 (by simp)
    | ok w =>
    rw [hw1, exbind_ok] at hpgv2
    cases hv1 : grpE caps 3 with
    | error e => rw [hv1, exbind_error] at hpgv2; exact absurd hpgv2 (by simp)
    | ok v =>
    rw [hv1, exbind_ok] at hpgv2
    cases hwq : _f w with
    | error e => rw [hwq, exbind_error] at hpgv2; exact absurd hpgv2 (by simp)
    | ok wq =>
    rw [hwq, exbind_ok] at hpgv2
    cases hvq : _f v with
    | error e => rw [hvq, exbind_error] at hpgv2; exact absurd hpgv2 (by simp)
    | ok vq =>
    rw [hvq, exbind_ok] at hpgv2
    injection hpgv2 with hpgv2
    have hwq2 : wq = some q := congrArg (fun t => t.2.1) hpgv2
    refine ⟨w, Or.inl ?_, by rw [hwq, hwq2]⟩
    simp [searchGrp, hs1, (grpE_ok_iff caps 2 w).mp hw1]
  | none =>
    simp only [hs1] at hpgv2
    cases hwv : rowGwVolOf text with
    | error e => rw [hwv, exbind_error] at hpgv2; exact absurd hpgv2 (by simp)
    | ok wv =>
    rw [hwv, exbind_ok] at hpgv2
    cases hpc : piecesFallback text with
    | error e => rw [hpc, exbind_error] at hpgv2; exact absurd hpgv2 (by simp)
    | ok pieces =>
    rw [hpc, exbind_ok] at hpgv2
    cases hwv1 : wv.1 with
    | some x =>
      simp only [hwv1, expure_bind] at hpgv2
      rcases rowGwVolOf_inv text wv hwv with ⟨-, hwvz⟩ | ⟨caps2, w, v, hs2, hw, hv, hfw, hfv⟩
      · rw [hwvz] at hwv1
        exact absurd hwv1 (by simp)
      · -- the second component step then the final record
        cases hwv2 : wv.2 with
        | some y =>
          simp only [hwv2, expure_bind] at hpgv2
          injection hpgv2 with hpgv2
          have hx : some x = some q := congrArg (fun t => t.2.1) hpgv2
          refine ⟨w, Or.inr (Or.inl ?_), ?_⟩
          · simp [searchGrp, hs2, hw]
          · rw [hfw, hwv1, hx]
        | none =>
          simp only [hwv2] at hpgv2
          cases hvf : volFallback text with
          | error e => rw [hvf, exbind_error] at hpgv2; exact absurd hpgv2 (by simp)
          | ok v3 =>
          rw [hvf, exbind_ok] at hpgv2
          injection hpgv2 with hpgv2
          have hx : some x = some q := congrArg (fun t => t.2.1) hpgv2
          refine ⟨w, Or.inr (Or.inl ?_), ?_⟩
          · simp [searchGrp, hs2, hw]
          · rw [hfw, hwv1, hx]
    | none =>
      simp only [hwv1] at hpgv2
      cases hgf : gwFallback text with
      | error e => rw [hgf, exbind_error] at hpgv2; exact absurd hpgv2 (by simp)
      | ok w3 =>
      rw [hgf, exbind_ok] at hpgv2
      cases hwv2 : wv.2 with
      | some y =>
        simp only [hwv2, expure_bind] at hpgv2
        injection hpgv2 with hpgv2
        have hx : w3 = some q := congrArg (fun t => t.2.1) hpgv2
        rw [hx] at hgf
        rcases gwFallback_inv text _ hgf with ⟨-, hz⟩ | ⟨caps3, g, hs3, hg, hfg⟩
        · exact absurd hz (by simp)
        · refine ⟨g, Or.inr (Or.inr ?_), hfg⟩
          simp [searchGrp, hs3, hg]
      | none =>
        simp only [hwv2] at hpgv2
        cases hvf : volFallback text with
        | error e => rw [hvf, exbind_error] at hpgv2; exact absurd hpgv2 (by simp)
        | ok v3 =>
        rw [hvf, exbind_ok] at hpgv2
        injection hpgv2 with hpgv2
        have hx : w3 = some q := congrArg (fun t => t.2.1) hpgv2
        rw [hx] at hgf
        rcases gwFallback_inv text _ hgf with ⟨-, hz⟩ | ⟨caps3, g, hs3, hg, hfg⟩
        · exact absurd hz (by simp)
        · refine ⟨g, Or.inr (Or.inr ?_), hfg⟩
          simp [searchGrp, hs3, hg]

/-- The record parsed from "G.W: 1,234.50 KGS". -/
def recC10 : Rec :=
  { Timestamp := "T", Filename := "F", Invoice_Date := none, Currency := "USD",
    Shipper := none, Weight_KG := some 1234.5, Volume_M3 := none,
    Chargeable_KG := none, Chargeable_CBM := none, Pieces := none,
    Subtotal := none, Freight_Mode := none, Freight_Rate := none }

unseal Rat.mul Rat.add Rat.inv Rat.ofScientific in
theorem C10_gross_weight_witness :
    ∃ g, (searchGrp ROW_PIECES_GW_VOL_PAT 2 "G.W: 1,234.50 KGS" = some g ∨
          searchGrp ROW_GW_VOL_PAT 1 "G.W: 1,234.50 KGS" = some g ∨
          searchGrp GW_PAT 1 "G.W: 1,234.50 KGS" = some g) ∧
      _f g = .ok (some 1234.5) :=
  C10_gross_weight.1 "T" "F" "G.W: 1,234.50 KGS" recC10 (by decide) 1234.5 (by decide)

end Silog
